import Mathlib

/-!
Verification development for the MQTT ingestion adapter
(components/sources/mqtt: config.rs, model.rs, connection.rs, lib.rs).

The Rust source is shallowly embedded: pure functions become Lean
functions, the impure wall-clock read becomes an explicit `now`
parameter, and the asynchronous receive loop becomes a fold over a
finite prefix of the inbound broker-event stream.  Machine integers
are modelled as `Nat`/`Int`; IEEE-754 doubles are modelled by the
symbolic carrier `F64` below, since no property proved here observes
a float's numeric value.
-/

set_option maxHeartbeats 1000000

namespace MqttAdapter

/-- Symbolic model of an IEEE-754 double (`f64`).  No claim in this
development observes the numeric value of a float, only which
constructor of the internal value type it lands in, so a double is
recorded by provenance: a parsed decimal literal `mantissa * 10 ^
exponent`, a `u64 as f64` cast, or an `i64 as f64` cast.  IEEE
rounding is deliberately not modelled. -/
inductive F64 where
  | ofLit (mantissa : Int) (exponent : Int)
  | ofU64 (n : Nat)
  | ofI64 (i : Int)
deriving DecidableEq, Repr

/-- Model of `serde_json::Number` (default features): a JSON number is
stored as a `u64` (non-negative integer literal that fits), an `i64`
(negative integer literal that fits), or an `f64` (everything else:
literals with a fraction or exponent, and out-of-range integer
literals). -/
inductive JNum where
  | posInt (n : Nat)
  | negInt (i : Int)
  | float (f : F64)
deriving DecidableEq, Repr

def i64Max : Nat := 9223372036854775807

def i64Min : Int := -9223372036854775808

def u64Max : Nat := 18446744073709551615

/-- Model of `serde_json::Number::as_i64`: `Some` exactly when the
stored representation is an integer in `i64` range. -/
def JNum.as_i64 : JNum → Option Int
  | .posInt n => if n ≤ i64Max then some (n : Int) else none
  | .negInt i => some i
  | .float _ => none

/-- Model of `serde_json::Number::as_f64`: total; integer-backed
numbers are cast (lossily for large `u64`), float-backed numbers are
returned as stored. -/
def JNum.as_f64 : JNum → Option F64
  | .posInt n => some (.ofU64 n)
  | .negInt i => some (.ofI64 i)
  | .float f => some f

/-- `Some` exactly when the stored number is mathematically an exact
integer (float-backed numbers are excluded because their value is not
modelled). -/
def JNum.exactInt : JNum → Option Int
  | .posInt n => some (n : Int)
  | .negInt i => some i
  | .float _ => none

/-- Model of `serde_json::Value`.  Objects are ordered association
lists, matching the order in which entries appear on the wire. -/
inductive Json where
  | null
  | bool (b : Bool)
  | num (n : JNum)
  | str (s : String)
  | arr (l : List Json)
  | obj (o : List (String × Json))

/-- First-occurrence field lookup in a JSON object.  With the
duplicate-field guards below, a known field that is looked up occurs
at most once, so first occurrence is exact; duplicates of unknown
fields are ignored by serde and never looked up. -/
def jlookup (o : List (String × Json)) (k : String) : Option Json :=
  match o with
  | [] => none
  | (k1, v) :: rest => if k1 = k then some v else jlookup rest k

/-- Number of entries of a JSON object carrying the field name `k`. -/
def keyCount (o : List (String × Json)) (k : String) : Nat :=
  o.countP fun kv => kv.1 = k

/-- serde's derived deserializers reject a duplicated tag
(`TaggedContentVisitor`) and any duplicated known field of the
selected variant (`duplicate_field`); this holds when every listed
field name occurs at most once. -/
def noDupFields (o : List (String × Json)) (ks : List String) : Bool :=
  ks.all fun k => keyCount o k ≤ 1

/-- A UTF-8 continuation byte. -/
def utf8IsCont (b : Nat) : Bool := 0x80 ≤ b && b ≤ 0xBF

/-- Valid second byte of a three-byte sequence headed by `b`
(restricted ranges for `0xE0`/`0xED` exclude overlong encodings and
surrogates, as in `core::str::validations`). -/
def utf8Cont2Ok3 (b b1 : Nat) : Bool :=
  if b = 0xE0 then 0xA0 ≤ b1 && b1 ≤ 0xBF
  else if b = 0xED then 0x80 ≤ b1 && b1 ≤ 0x9F
  else utf8IsCont b1

/-- Valid second byte of a four-byte sequence headed by `b`
(restricted ranges for `0xF0`/`0xF4` exclude overlong encodings and
codepoints above `U+10FFFF`). -/
def utf8Cont2Ok4 (b b1 : Nat) : Bool :=
  if b = 0xF0 then 0x90 ≤ b1 && b1 ≤ 0xBF
  else if b = 0xF4 then 0x80 ≤ b1 && b1 ≤ 0x8F
  else utf8IsCont b1

def replacementChar : Char := Char.ofNat 0xFFFD

/-- Model of `String::from_utf8_lossy` (connection.rs line 56): decode
UTF-8, replacing each maximal invalid subpart with one `U+FFFD`, per
the substitution policy Rust implements (`Utf8Error::error_len`
bytes are skipped per replacement; a valid prefix of a multi-byte
sequence followed by an invalid byte is replaced as a unit and
decoding resumes at the offending byte).  Fuel-indexed: each step
consumes at least one byte, and the wrapper below supplies fuel equal
to the byte count, so the fuel never runs out on the recursion path. -/
def utf8LossyGo : Nat → List Nat → List Char
  | 0, _ => []
  | _, [] => []
  | fuel + 1, b :: rest =>
    if b ≤ 0x7F then Char.ofNat b :: utf8LossyGo fuel rest
    else if 0xC2 ≤ b && b ≤ 0xDF then
      match rest with
      | b1 :: rest1 =>
        if utf8IsCont b1 then
          Char.ofNat ((b - 0xC0) * 64 + (b1 - 0x80)) :: utf8LossyGo fuel rest1
        else replacementChar :: utf8LossyGo fuel rest
      | [] => [replacementChar]
    else if 0xE0 ≤ b && b ≤ 0xEF then
      match rest with
      | b1 :: rest1 =>
        if utf8Cont2Ok3 b b1 then
          match rest1 with
          | b2 :: rest2 =>
            if utf8IsCont b2 then
              Char.ofNat ((b - 0xE0) * 4096 + (b1 - 0x80) * 64 + (b2 - 0x80)) :: utf8LossyGo fuel rest2
            else replacementChar :: utf8LossyGo fuel rest1
          | [] => [replacementChar]
        else replacementChar :: utf8LossyGo fuel rest
      | [] => [replacementChar]
    else if 0xF0 ≤ b && b ≤ 0xF4 then
      match rest with
      | b1 :: rest1 =>
        if utf8Cont2Ok4 b b1 then
          match rest1 with
          | b2 :: rest2 =>
            if utf8IsCont b2 then
              match rest2 with
              | b3 :: rest3 =>
                if utf8IsCont b3 then
                  Char.ofNat
                    ((b - 0xF0) * 262144 + (b1 - 0x80) * 4096 + (b2 - 0x80) * 64 + (b3 - 0x80))
                    :: utf8LossyGo fuel rest3
                else replacementChar :: utf8LossyGo fuel rest2
              | [] => [replacementChar]
            else replacementChar :: utf8LossyGo fuel rest1
          | [] => [replacementChar]
        else replacementChar :: utf8LossyGo fuel rest
      | [] => [replacementChar]
    else replacementChar :: utf8LossyGo fuel rest


/-- Model of `String::from_utf8_lossy` (see `utf8LossyGo`). -/
def utf8Lossy (bs : List Nat) : List Char := utf8LossyGo bs.length bs

/-- JSON whitespace accepted by `serde_json`. -/
def isJsonWs (c : Char) : Bool := c = ' ' || c = '\t' || c = '\n' || c = '\r'

def skipWs : List Char → List Char
  | [] => []
  | c :: rest => if isJsonWs c then skipWs rest else c :: rest

def hexVal (c : Char) : Option Nat :=
  if '0' ≤ c && c ≤ '9' then some (c.toNat - 48)
  else if 'a' ≤ c && c ≤ 'f' then some (c.toNat - 97 + 10)
  else if 'A' ≤ c && c ≤ 'F' then some (c.toNat - 65 + 10)
  else none

def parseHex4 : List Char → Option (Nat × List Char)
  | c1 :: c2 :: c3 :: c4 :: rest =>
    match hexVal c1, hexVal c2, hexVal c3, hexVal c4 with
    | some h1, some h2, some h3, some h4 =>
      some (h1 * 4096 + h2 * 256 + h3 * 16 + h4, rest)
    | _, _, _, _ => none
  | _ => none

/-- Parse the body of a JSON string after the opening quote, up to the
closing quote: raw characters at or above `U+0020` other than the
quote and backslash, the short escapes, and `\uXXXX` escapes with
surrogate pairs (serde_json rejects unpaired surrogates when
deserializing to `String`). -/
def parseStringRestGo : Nat → List Char → Option (List Char × List Char)
  | 0, _ => none
  | _, [] => none
  | fuel + 1, c :: rest =>
    if c = '"' then some ([], rest)
    else if c = '\\' then
      match rest with
      | [] => none
      | e :: rest1 =>
        if e = 'u' then
          match rest1 with
          | c1 :: c2 :: c3 :: c4 :: rest2 =>
            match parseHex4 [c1, c2, c3, c4] with
            | none => none
            | some (n, _) =>
              if n < 0xD800 || 0xDFFF < n then
                match parseStringRestGo fuel rest2 with
                | some (cs, r) => some (Char.ofNat n :: cs, r)
                | none => none
              else if 0xDC00 ≤ n then none
              else
                match rest2 with
                | '\\' :: 'u' :: c5 :: c6 :: c7 :: c8 :: rest4 =>
                  match parseHex4 [c5, c6, c7, c8] with
                  | some (n2, _) =>
                    if 0xDC00 ≤ n2 && n2 ≤ 0xDFFF then
                      match parseStringRestGo fuel rest4 with
                      | some (cs, r) =>
                        some (Char.ofNat (0x10000 + (n - 0xD800) * 1024 + (n2 - 0xDC00)) :: cs, r)
                      | none => none
                    else none
                  | none => none
                | _ => none
          | _ => none
        else
          match
            (if e = '"' then some '"'
             else if e = '\\' then some '\\'
             else if e = '/' then some '/'
             else if e = 'b' then some (Char.ofNat 8)
             else if e = 'f' then some (Char.ofNat 12)
             else if e = 'n' then some (Char.ofNat 10)
             else if e = 'r' then some (Char.ofNat 13)
             else if e = 't' then some (Char.ofNat 9)
             else none) with
          | some ec =>
            match parseStringRestGo fuel rest1 with
            | some (cs, r) => some (ec :: cs, r)
            | none => none
          | none => none
    else if c.toNat < 0x20 then none
    else
      match parseStringRestGo fuel rest with
      | some (cs, r) => some (c :: cs, r)
      | none => none

/-- Parse the body of a JSON string (see `parseStringRestGo`); fuel is
the input length, which every step strictly consumes. -/
def parseStringRest (cs : List Char) : Option (List Char × List Char) :=
  parseStringRestGo cs.length cs

def isDigit (c : Char) : Bool := '0' ≤ c && c ≤ '9'

def takeDigits : List Char → List Nat × List Char
  | [] => ([], [])
  | c :: rest =>
    if isDigit c then
      let (ds, r) := takeDigits rest
      ((c.toNat - 48) :: ds, r)
    else ([], c :: rest)

def digitsToNat (ds : List Nat) : Nat := ds.foldl (fun a d => a * 10 + d) 0

/-- Parse the integer part of a JSON number: a single `0`, or a
nonzero digit followed by digits (leading zeros are rejected). -/
def parseIntPart : List Char → Option (List Nat × List Char)
  | [] => none
  | c :: rest =>
    if c = '0' then some ([0], rest)
    else if isDigit c then
      let (ds, r) := takeDigits rest
      some ((c.toNat - 48) :: ds, r)
    else none

/-- Parse a JSON number, classifying it as `serde_json` does with
default features: an integer literal is stored as `u64` when
non-negative and in range, as `i64` when negative and in range, and
falls back to `f64` otherwise; a literal with a fraction or exponent
is stored as `f64`; `-0` is stored as the float `-0.0`.  The `f64`
value itself is kept symbolically (`F64.ofLit`), so the range error
serde_json raises for floats that overflow to infinity is not
modelled. -/
def parseNumber (cs : List Char) : Option (JNum × List Char) :=
  let (neg, cs1) :=
    match cs with
    | '-' :: rest => (true, rest)
    | _ => (false, cs)
  match parseIntPart cs1 with
  | none => none
  | some (intDs, cs2) =>
    let (fracDs, cs3) :=
      match cs2 with
      | '.' :: rest => ((takeDigits rest).1, (takeDigits rest).2)
      | _ => ([], cs2)
    let fracPresent : Bool :=
      match cs2 with
      | '.' :: _ => true
      | _ => false
    if fracPresent && fracDs.isEmpty then none
    else
      let (expPresent, expNeg, expDs, cs4) :=
        match cs3 with
        | c :: rest =>
          if c = 'e' || c = 'E' then
            match rest with
            | '+' :: rest1 => (true, false, (takeDigits rest1).1, (takeDigits rest1).2)
            | '-' :: rest1 => (true, true, (takeDigits rest1).1, (takeDigits rest1).2)
            | _ => (true, false, (takeDigits rest).1, (takeDigits rest).2)
          else (false, false, [], cs3)
        | [] => (false, false, [], cs3)
      if expPresent && expDs.isEmpty then none
      else if !fracPresent && !expPresent then
        let v := digitsToNat intDs
        if neg then
          if v = 0 then some (.float (.ofLit 0 0), cs4)
          else if v ≤ i64Max + 1 then some (.negInt (-(v : Int)), cs4)
          else some (.float (.ofLit (-(v : Int)) 0), cs4)
        else
          if v ≤ u64Max then some (.posInt v, cs4)
          else some (.float (.ofLit (v : Int) 0), cs4)
      else
        let mAbs : Int := (digitsToNat (intDs ++ fracDs) : Int)
        let m : Int := if neg then -mAbs else mAbs
        let e : Int :=
          (if expNeg then -(digitsToNat expDs : Int) else (digitsToNat expDs : Int)) -
            (fracDs.length : Int)
        some (.float (.ofLit m e), cs4)

mutual

/-- Parse one JSON value (fuel-indexed; every recursive call passes a
strictly smaller fuel, and the entry point supplies fuel bounded by
the input length, which every nesting step consumes). -/
def parseValue : Nat → List Char → Option (Json × List Char)
  | 0, _ => none
  | fuel + 1, cs =>
    match cs with
    | [] => none
    | c :: rest =>
      if c = 'n' then
        match rest with
        | 'u' :: 'l' :: 'l' :: r => some (.null, r)
        | _ => none
      else if c = 't' then
        match rest with
        | 'r' :: 'u' :: 'e' :: r => some (.bool true, r)
        | _ => none
      else if c = 'f' then
        match rest with
        | 'a' :: 'l' :: 's' :: 'e' :: r => some (.bool false, r)
        | _ => none
      else if c = '"' then
        match parseStringRest rest with
        | some (chars, r) => some (.str (String.mk chars), r)
        | none => none
      else if c = '[' then
        match skipWs rest with
        | ']' :: r => some (.arr [], r)
        | cs1 => parseArrayItems fuel cs1 []
      else if c = '{' then
        match skipWs rest with
        | '}' :: r => some (.obj [], r)
        | cs1 => parseObjItems fuel cs1 []
      else if c = '-' || isDigit c then
        match parseNumber (c :: rest) with
        | some (n, r) => some (.num n, r)
        | none => none
      else none

/-- Parse the remaining items of a non-empty JSON array. -/
def parseArrayItems : Nat → List Char → List Json → Option (Json × List Char)
  | 0, _, _ => none
  | fuel + 1, cs, acc =>
    match parseValue fuel cs with
    | none => none
    | some (j, rest) =>
      match skipWs rest with
      | ',' :: rest1 => parseArrayItems fuel (skipWs rest1) (acc ++ [j])
      | ']' :: rest1 => some (.arr (acc ++ [j]), rest1)
      | _ => none

/-- Parse the remaining entries of a non-empty JSON object. -/
def parseObjItems : Nat → List Char → List (String × Json) → Option (Json × List Char)
  | 0, _, _ => none
  | fuel + 1, cs, acc =>
    match cs with
    | '"' :: cs1 =>
      match parseStringRest cs1 with
      | none => none
      | some (kcs, rest) =>
        match skipWs rest with
        | ':' :: rest1 =>
          match parseValue fuel (skipWs rest1) with
          | none => none
          | some (v, rest2) =>
            match skipWs rest2 with
            | ',' :: rest3 => parseObjItems fuel (skipWs rest3) (acc ++ [(String.mk kcs, v)])
            | '}' :: rest3 => some (.obj (acc ++ [(String.mk kcs, v)]), rest3)
            | _ => none
        | _ => none
    | _ => none

end

/-- Parse a complete JSON document as `serde_json::from_str` does:
one value, surrounded by optional whitespace, with nothing after it. -/
def parseJson (cs : List Char) : Option Json :=
  match parseValue (4 * cs.length + 8) (skipWs cs) with
  | some (j, rest) => if skipWs rest = [] then some j else none
  | none => none

/-- Wire element model (model.rs `MQTTElement`): internally tagged on
`"type"`, variants renamed to lowercase; `properties` carries raw JSON
values and is `#[serde(default)]`. -/
inductive MQTTElement where
  | Node (id : String) (labels : List String) (properties : List (String × Json))
  | Relation (id : String) (labels : List String) (from_ to_ : String)
      (properties : List (String × Json))

/-- Wire change model (model.rs `MQTTSourceChange`): internally tagged
on `"operation"`, variants renamed to lowercase; the `timestamp` and
`labels` options are skipped when serializing `None`. -/
inductive MQTTSourceChange where
  | Insert (element : MQTTElement) (timestamp : Option Nat)
  | Update (element : MQTTElement) (timestamp : Option Nat)
  | Delete (id : String) (labels : Option (List String)) (timestamp : Option Nat)

/-- Deserialize a list of JSON values as `Vec<String>` elements. -/
def decodeStrings : List Json → Except String (List String)
  | [] => .ok []
  | j :: rest =>
    match j with
    | .str s =>
      match decodeStrings rest with
      | .ok tail => .ok (s :: tail)
      | .error e => .error e
    | _ => .error "invalid type: expected a string"

/-- Deserialize a required `String` field. -/
def decodeReqStringField (o : List (String × Json)) (k : String) : Except String String :=
  match jlookup o k with
  | some (.str s) => .ok s
  | some _ => .error "invalid type: expected a string"
  | none => .error ("missing field " ++ k)

/-- Deserialize a required `Vec<String>` field. -/
def decodeReqLabelsField (o : List (String × Json)) (k : String) :
    Except String (List String) :=
  match jlookup o k with
  | some (.arr l) => decodeStrings l
  | some _ => .error "invalid type: expected an array"
  | none => .error ("missing field " ++ k)

/-- Deserialize an `Option<Vec<String>>` field: absent or `null` is
`None`. -/
def decodeOptLabelsField (o : List (String × Json)) (k : String) :
    Except String (Option (List String)) :=
  match jlookup o k with
  | none => .ok none
  | some .null => .ok none
  | some (.arr l) =>
    match decodeStrings l with
    | .ok ls => .ok (some ls)
    | .error e => .error e
  | some _ => .error "invalid type: expected an array"

/-- Deserialize an `Option<u64>` field: absent or `null` is `None`; a
`u64`-backed number is `Some`; anything else (negative or float-backed
numbers included) is an error, as serde rejects them for `u64`. -/
def decodeOptU64Field (o : List (String × Json)) (k : String) :
    Except String (Option Nat) :=
  match jlookup o k with
  | none => .ok none
  | some .null => .ok none
  | some (.num (.posInt n)) => .ok (some n)
  | some _ => .error "invalid type: expected u64"

/-- Deserialize the `#[serde(default)]` `properties` field: absent
means empty; present, it must be a JSON object and its entries are
kept as raw JSON. -/
def decodePropsField (o : List (String × Json)) :
    Except String (List (String × Json)) :=
  match jlookup o "properties" with
  | none => .ok []
  | some (.obj m) => .ok m
  | some _ => .error "invalid type: expected an object"

/-- Deserialize `MQTTElement` from a JSON value, following the serde
derive for the JSON-object representation of the internally tagged
enum (the wire form of spec section 6): the `"type"` tag selects the
variant; a duplicated tag or duplicated known field of the selected
variant is rejected, as serde's `TaggedContentVisitor` and derived
struct visitors reject them; unknown fields (and their duplicates)
are ignored.  Which of several simultaneous failure causes is
reported first is not modelled, only whether decoding fails. -/
def mqttElementFromJson : Json → Except String MQTTElement
  | .obj fields =>
    if noDupFields fields ["type"] = true then
      (match jlookup fields "type" with
       | some (.str t) =>
         if t = "node" then
           if noDupFields fields ["id", "labels", "properties"] = true then
             match decodeReqStringField fields "id" with
             | .error e => .error e
             | .ok id =>
               match decodeReqLabelsField fields "labels" with
               | .error e => .error e
               | .ok labels =>
                 match decodePropsField fields with
                 | .error e => .error e
                 | .ok props => .ok (.Node id labels props)
           else .error "duplicate field"
         else if t = "relation" then
           if noDupFields fields ["id", "labels", "from", "to", "properties"] = true then
             match decodeReqStringField fields "id" with
             | .error e => .error e
             | .ok id =>
               match decodeReqLabelsField fields "labels" with
               | .error e => .error e
               | .ok labels =>
                 match decodeReqStringField fields "from" with
                 | .error e => .error e
                 | .ok f =>
                   match decodeReqStringField fields "to" with
                   | .error e => .error e
                   | .ok t2 =>
                     match decodePropsField fields with
                     | .error e => .error e
                     | .ok props => .ok (.Relation id labels f t2 props)
           else .error "duplicate field"
         else .error ("unknown variant " ++ t)
       | some _ => .error "invalid type: tag is not a string"
       | none => .error "missing field type")
    else .error "duplicate field type"
  | _ => .error "invalid type: expected an object"

/-- Deserialize `MQTTSourceChange` from a JSON value, following the
serde derive for the JSON-object representation of the internally
tagged enum: the `"operation"` tag selects the variant; a duplicated
tag or duplicated known field of the selected variant is rejected,
unknown fields are ignored. -/
def mqttFromJson : Json → Except String MQTTSourceChange
  | .obj fields =>
    if noDupFields fields ["operation"] = true then
      (match jlookup fields "operation" with
       | some (.str op) =>
         if op = "insert" then
           if noDupFields fields ["element", "timestamp"] = true then
             match jlookup fields "element" with
             | none => .error "missing field element"
             | some ej =>
               match mqttElementFromJson ej with
               | .error e => .error e
               | .ok el =>
                 match decodeOptU64Field fields "timestamp" with
                 | .error e => .error e
                 | .ok ts => .ok (.Insert el ts)
           else .error "duplicate field"
         else if op = "update" then
           if noDupFields fields ["element", "timestamp"] = true then
             match jlookup fields "element" with
             | none => .error "missing field element"
             | some ej =>
               match mqttElementFromJson ej with
               | .error e => .error e
               | .ok el =>
                 match decodeOptU64Field fields "timestamp" with
                 | .error e => .error e
                 | .ok ts => .ok (.Update el ts)
           else .error "duplicate field"
         else if op = "delete" then
           if noDupFields fields ["id", "labels", "timestamp"] = true then
             match decodeReqStringField fields "id" with
             | .error e => .error e
             | .ok id =>
               match decodeOptLabelsField fields "labels" with
               | .error e => .error e
               | .ok labels =>
                 match decodeOptU64Field fields "timestamp" with
                 | .error e => .error e
                 | .ok ts => .ok (.Delete id labels ts)
           else .error "duplicate field"
         else .error ("unknown variant " ++ op)
       | some _ => .error "invalid type: tag is not a string"
       | none => .error "missing field operation")
    else .error "duplicate field operation"
  | _ => .error "invalid type: expected an object"

/-- model.rs `map_json_to_mqtt_source_change`: parse the text as JSON
and deserialize it as `MQTTSourceChange` (the two stages of
`serde_json::from_str`). -/
def map_json_to_mqtt_source_change (s : List Char) : Except String MQTTSourceChange :=
  match parseJson s with
  | none => .error "invalid JSON"
  | some j => mqttFromJson j

/-- The decode step of connection.rs line 56:
`map_json_to_mqtt_source_change(&String::from_utf8_lossy(&payload))`. -/
def decodePayload (payload : List Nat) : Except String MQTTSourceChange :=
  map_json_to_mqtt_source_change (utf8Lossy payload)

/-- Serialize `MQTTElement` per the serde derive (tag first, then
fields in declaration order). -/
def mqttElementToJson : MQTTElement → Json
  | .Node id labels props =>
    .obj [("type", .str "node"), ("id", .str id),
          ("labels", .arr (labels.map .str)), ("properties", .obj props)]
  | .Relation id labels f t props =>
    .obj [("type", .str "relation"), ("id", .str id),
          ("labels", .arr (labels.map .str)), ("from", .str f), ("to", .str t),
          ("properties", .obj props)]

/-- The serialized `timestamp` field (skipped when `None`). -/
def tsFields : Option Nat → List (String × Json)
  | none => []
  | some t => [("timestamp", .num (.posInt t))]

/-- The serialized optional `labels` field (skipped when `None`). -/
def labelsFields : Option (List String) → List (String × Json)
  | none => []
  | some ls => [("labels", .arr (ls.map .str))]

/-- Serialize `MQTTSourceChange` per the serde derive. -/
def mqttToJson : MQTTSourceChange → Json
  | .Insert el ts =>
    .obj ([("operation", .str "insert"), ("element", mqttElementToJson el)] ++ tsFields ts)
  | .Update el ts =>
    .obj ([("operation", .str "update"), ("element", mqttElementToJson el)] ++ tsFields ts)
  | .Delete id labels ts =>
    .obj ([("operation", .str "delete"), ("id", .str id)] ++ labelsFields labels ++ tsFields ts)

/-- Whether a JSON value is a string (spec-side shape check). -/
def isStrJson : Json → Bool
  | .str _ => true
  | _ => false

/-- Spec-side: field `k`, if present, is a `u64` or `null`. -/
def optU64Ok (o : List (String × Json)) (k : String) : Bool :=
  match jlookup o k with
  | none => true
  | some .null => true
  | some (.num (.posInt _)) => true
  | some _ => false

/-- Spec-side: field `k` is present and a string. -/
def reqStrOk (o : List (String × Json)) (k : String) : Bool :=
  match jlookup o k with
  | some (.str _) => true
  | _ => false

/-- Spec-side: field `k` is present and an array of strings. -/
def reqLabelsOk (o : List (String × Json)) (k : String) : Bool :=
  match jlookup o k with
  | some (.arr l) => l.all isStrJson
  | _ => false

/-- Spec-side: field `k`, if present, is an array of strings or
`null`. -/
def optLabelsOk (o : List (String × Json)) (k : String) : Bool :=
  match jlookup o k with
  | none => true
  | some .null => true
  | some (.arr l) => l.all isStrJson
  | _ => false

/-- Spec-side: the `properties` field, if present, is an object. -/
def propsOk (o : List (String × Json)) : Bool :=
  match jlookup o "properties" with
  | none => true
  | some (.obj _) => true
  | _ => false

/-- Declarative element schema, from spec section 6: an object tagged
`"type": "node" | "relation"` with the required fields of the matched
tag in conforming shape, the tag and the known fields of the matched
variant each occurring at most once (serde rejects duplicates of
them). -/
def elementSchemaOk : Json → Bool
  | .obj fields =>
    noDupFields fields ["type"] &&
    (match jlookup fields "type" with
     | some (.str t) =>
       if t = "node" then
         noDupFields fields ["id", "labels", "properties"] &&
         (reqStrOk fields "id" && reqLabelsOk fields "labels" && propsOk fields)
       else if t = "relation" then
         noDupFields fields ["id", "labels", "from", "to", "properties"] &&
         (reqStrOk fields "id" && reqLabelsOk fields "labels" &&
           reqStrOk fields "from" && reqStrOk fields "to" && propsOk fields)
       else false
     | _ => false)
  | _ => false

/-- Declarative wire schema, from spec sections 4.3 and 6: an object
tagged `"operation": "insert" | "update" | "delete"`, with the
required fields of the matched tag present and in conforming shape,
the tag and the known fields of the matched variant each occurring at
most once (serde rejects duplicates of them). -/
def wireSchemaOk : Json → Bool
  | .obj fields =>
    noDupFields fields ["operation"] &&
    (match jlookup fields "operation" with
     | some (.str op) =>
       if op = "insert" ∨ op = "update" then
         noDupFields fields ["element", "timestamp"] &&
         ((match jlookup fields "element" with
           | some e => elementSchemaOk e
           | none => false) && optU64Ok fields "timestamp")
       else if op = "delete" then
         noDupFields fields ["id", "labels", "timestamp"] &&
         (reqStrOk fields "id" && optLabelsOk fields "labels" &&
           optU64Ok fields "timestamp")
       else false
     | _ => false)
  | _ => false

/-- Modelled from the spec: `drasi_core::models::ElementValue`
(section 3 Value), the internal typed value: a recursive variant over
Null, Bool, Integer (i64), Float (f64 via `OrderedFloat`), String,
List and Object.  The crate's definition is not under src/; this
follows the spec's enumeration. -/
inductive ElementValue where
  | Null
  | Bool (b : Bool)
  | Integer (i : Int)
  | Float (f : F64)
  | String (s : String)
  | List (l : List ElementValue)
  | Object (m : List (String × ElementValue))

/-- Modelled from the spec: `drasi_core::models::ElementPropertyMap`,
an ordered mapping from string keys to values (section 3).  Inserting
an existing key replaces its value in place; a new key is appended. -/
def propInsert : List (String × ElementValue) → String → ElementValue →
    List (String × ElementValue)
  | [], k, v => [(k, v)]
  | (k1, v1) :: rest, k, v =>
    if k1 = k then (k1, v) :: rest else (k1, v1) :: propInsert rest k v

/-- Build a property map by inserting entries in order (models the
`for (k, v) in properties { prop_map.insert(k, ...) }` loops). -/
def buildPropMap (ents : List (String × ElementValue)) : List (String × ElementValue) :=
  ents.foldl (fun m e => propInsert m e.1 e.2) []

/-- Modelled from the spec: `drasi_core::models::ElementReference`,
the (source_id, element_id) addressing pair (section 3). -/
structure ElementReference where
  source_id : String
  element_id : String
deriving DecidableEq, Repr

/-- Modelled from the spec: `drasi_core::models::ElementMetadata`:
reference, label set, and the effective-from timestamp in
milliseconds. -/
structure ElementMetadata where
  reference : ElementReference
  labels : List String
  effective_from : Nat
deriving DecidableEq, Repr

/-- Modelled from the spec: `drasi_core::models::Element`, a node or
relation with metadata and typed properties; a relation additionally
carries its incoming and outgoing endpoint references. -/
inductive Element where
  | Node (metadata : ElementMetadata) (properties : List (String × ElementValue))
  | Relation (metadata : ElementMetadata) (properties : List (String × ElementValue))
      (in_node : ElementReference) (out_node : ElementReference)

/-- Modelled from the spec: `drasi_core::models::SourceChange`, the
graph change handed downstream (glossary: Insert/Update/Delete against
a node or relation). -/
inductive SourceChange where
  | Insert (element : Element)
  | Update (element : Element)
  | Delete (metadata : ElementMetadata)

mutual

/-- model.rs `convert_json_to_element_value`: recursively convert a
JSON value to an `ElementValue`; numbers go through
`as_i64`/`as_f64`, with an error only when both fail (unreachable for
`serde_json` numbers, whose `as_f64` is total). -/
def convert_json_to_element_value : Json → Except String ElementValue
  | .null => .ok .Null
  | .bool b => .ok (.Bool b)
  | .num n =>
    (match n.as_i64 with
     | some i => .ok (.Integer i)
     | none =>
       match n.as_f64 with
       | some f => .ok (.Float f)
       | none => .error "Unsupported number type")
  | .str s => .ok (.String s)
  | .arr l =>
    (match convertJsonList l with
     | .ok vs => .ok (.List vs)
     | .error e => .error e)
  | .obj o =>
    (match convertJsonEntries o with
     | .ok ents => .ok (.Object (buildPropMap ents))
     | .error e => .error e)

/-- Convert a list of JSON values elementwise (the loop in the
`Array` arm). -/
def convertJsonList : List Json → Except String (List ElementValue)
  | [] => .ok []
  | j :: rest =>
    match convert_json_to_element_value j with
    | .error e => .error e
    | .ok v =>
      match convertJsonList rest with
      | .ok vs => .ok (v :: vs)
      | .error e => .error e

/-- Convert object entries in order (the loop in the `Object` arm);
the caller folds the converted entries into a property map exactly as
the Rust loop inserts them. -/
def convertJsonEntries : List (String × Json) →
    Except String (List (String × ElementValue))
  | [] => .ok []
  | (k, v) :: rest =>
    match convert_json_to_element_value v with
    | .error e => .error e
    | .ok ev =>
      match convertJsonEntries rest with
      | .ok tail => .ok ((k, ev) :: tail)
      | .error e => .error e

end

/-- model.rs `create_element_from_mqtt`: build element metadata
(reference, labels, effective_from) from the wire element and stamp
every reference — including a relation's `in_node` (from the wire
`to`) and `out_node` (from the wire `from`) — with the `source_id`
argument. -/
def create_element_from_mqtt (mqtt_element : MQTTElement) (source_id : String)
    (timestamp : Nat) : Except String Element :=
  match mqtt_element with
  | .Node id labels properties =>
    (match convertJsonEntries properties with
     | .error e => .error e
     | .ok ents =>
       .ok (.Node { reference := { source_id := source_id, element_id := id },
                    labels := labels, effective_from := timestamp }
                  (buildPropMap ents)))
  | .Relation id labels from_ to_ properties =>
    (match convertJsonEntries properties with
     | .error e => .error e
     | .ok ents =>
       .ok (.Relation { reference := { source_id := source_id, element_id := id },
                        labels := labels, effective_from := timestamp }
                      (buildPropMap ents)
                      { source_id := source_id, element_id := to_ }
                      { source_id := source_id, element_id := from_ }))

/-- model.rs `convert_mqtt_to_source_change`: the wall-clock read
(`SystemTime::now` in ms) that backs each `unwrap_or_else` is passed
explicitly as `now`. -/
def convert_mqtt_to_source_change (mqtt_change : MQTTSourceChange) (source_id : String)
    (now : Nat) : Except String SourceChange :=
  match mqtt_change with
  | .Insert element timestamp =>
    (match create_element_from_mqtt element source_id (timestamp.getD now) with
     | .ok el => .ok (.Insert el)
     | .error e => .error e)
  | .Update element timestamp =>
    (match create_element_from_mqtt element source_id (timestamp.getD now) with
     | .ok el => .ok (.Update el)
     | .error e => .error e)
  | .Delete id labels timestamp =>
    .ok (.Delete { reference := { source_id := source_id, element_id := id },
                   labels := labels.getD [],
                   effective_from := timestamp.getD now })

/-- Inbound broker events seen by the receive loop (rumqttc
`Event::Incoming`): a publish carries a raw payload; every other
incoming packet is observed for diagnostics only. -/
inductive IncomingEvent where
  | publish (topic : String) (payload : List Nat)
  | otherIncoming

/-- One iteration's outcome of `eventloop.poll()`: an event, or a
transport error (which the `?` at connection.rs line 45 propagates). -/
inductive PollResult where
  | incoming (i : IncomingEvent)
  | outgoing
  | transportError (msg : String)

/-- connection.rs `SourceChangeEvent` (declared in lib.rs's crate
root): the dispatch-time wrapper of a converted change with the source
id and an emission timestamp (`chrono::Utc::now()`, modelled by the
explicit `now`). -/
structure SourceChangeEvent where
  source_id : String
  change : SourceChange
  timestamp : Nat

/-- Observable outcome of one `process_events` call: the converted
change was wrapped and handed on (the `println!` dispatch), or the
conversion failure was logged (the `error!` arm) and the loop
continued. -/
inductive LoopItem where
  | dispatched (e : SourceChangeEvent)
  | conversionFailureLogged (source_id : String)

/-- connection.rs `MQTTConnectionWrapper::process_events`: convert the
decoded change with the given source id; on success wrap and dispatch,
on failure log — either way return without error. -/
def process_events (source_id : String) (event : MQTTSourceChange) (now : Nat) : LoopItem :=
  match convert_mqtt_to_source_change event source_id now with
  | .ok source_change =>
    .dispatched { source_id := source_id, change := source_change, timestamp := now }
  | .error _ => .conversionFailureLogged source_id

/-- How the receive loop left a finite prefix of the poll stream:
still blocked awaiting the next broker event, or terminated by an
error propagated with `?`.  The `loop` at connection.rs lines 44-67
has no `break`, so there is no normal exit. -/
inductive LoopExit where
  | blocked
  | failed (msg : String)
deriving DecidableEq, Repr

/-- The hardcoded dispatch source id at connection.rs line 57. -/
def hardcodedSourceId : String := "mqtt-source"

/-- The receive loop of `MQTTConnectionWrapper::start` (connection.rs
lines 44-67) over a finite prefix of poll results: a publish payload
is decoded — a decode failure propagates out of the loop via the `?`
at line 56 — then converted and dispatched by `process_events` under
the hardcoded source id; non-publish and outgoing events only print. -/
def sessionLoop (now : Nat) : List PollResult → List LoopItem × LoopExit
  | [] => ([], .blocked)
  | .transportError msg :: _ => ([], .failed msg)
  | .incoming (.publish _topic payload) :: rest =>
    (match decodePayload payload with
     | .error msg => ([], .failed msg)
     | .ok change =>
       let item := process_events hardcodedSourceId change now
       let (items, ex) := sessionLoop now rest
       (item :: items, ex))
  | .incoming .otherIncoming :: rest => sessionLoop now rest
  | .outgoing :: rest => sessionLoop now rest

/-- connection.rs `MQTTConnectionWrapper::start`: subscribe first — a
subscribe failure is propagated and the loop never runs — then enter
the receive loop. -/
def connectionStart (subscribeOk : Bool) (now : Nat) (polls : List PollResult) :
    List LoopItem × LoopExit :=
  if subscribeOk then sessionLoop now polls
  else ([], .failed "subscribe error")

/-- Modelled from the spec: `drasi_lib::ComponentStatus`, the
lifecycle states of section 4.6: Stopped (initial), Starting, Running,
Stopping. -/
inductive ComponentStatus where
  | Stopped
  | Starting
  | Running
  | Stopping
deriving DecidableEq, Repr

/-- An observable step of `MQTTSource::start`: a status reported to
the framework, or a receive-loop item. -/
inductive TraceEntry where
  | statusSet (s : ComponentStatus)
  | loopItem (i : LoopItem)

/-- lib.rs `MQTTSource::start` (lines 83-103): report Starting, build
the connection config from the adapter's configured `id` (the id
reaches only the broker client options, not the dispatch path), run
`MQTTConnectionWrapper::start`, and only after that call returns `Ok`
set Running.  Because the receive loop has no normal exit, the
Running transition is unreachable: a failed loop propagates its error
past the `set_status(Running)` line, and an unfailed loop never
returns.  The result pairs the observable trace with the propagated
error, if any. -/
def mqttSourceStart (id : String) (subscribeOk : Bool) (now : Nat)
    (polls : List PollResult) : List TraceEntry × Option String :=
  let _clientId := id
  let (items, ex) := connectionStart subscribeOk now polls
  match ex with
  | .failed msg => (.statusSet .Starting :: items.map .loopItem, some msg)
  | .blocked => (.statusSet .Starting :: items.map .loopItem, none)

/-- Whether a trace reports the Running status (used to state that no
prefix of `MQTTSource::start`'s execution does). -/
def traceHasRunning (tr : List TraceEntry) : Bool :=
  tr.any fun e =>
    match e with
    | .statusSet .Running => true
    | _ => false

/-- Number of dispatched events in a trace. -/
def traceDispatchCount (tr : List TraceEntry) : Nat :=
  tr.countP fun e =>
    match e with
    | .loopItem (.dispatched _) => true
    | _ => false

/-- The element references contained in an element (its own
reference, plus endpoint references for a relation). -/
def Element.refs : Element → List ElementReference
  | .Node md _ => [md.reference]
  | .Relation md _ inn outn => [md.reference, inn, outn]

/-- The element references contained in a source change. -/
def SourceChange.refs : SourceChange → List ElementReference
  | .Insert el => el.refs
  | .Update el => el.refs
  | .Delete md => [md.reference]

/-- The metadata of an element. -/
def Element.metadata : Element → ElementMetadata
  | .Node md _ => md
  | .Relation md _ _ _ => md

/-- The effective-from timestamp carried by a source change. -/
def SourceChange.effectiveFrom : SourceChange → Nat
  | .Insert el => el.metadata.effective_from
  | .Update el => el.metadata.effective_from
  | .Delete md => md.effective_from

/-- Unicode `White_Space` characters, the set `char::is_whitespace`
tests and `str::trim` strips. -/
def isRustWhitespace (c : Char) : Bool :=
  (0x09 ≤ c.toNat && c.toNat ≤ 0x0D) || c.toNat = 0x20 || c.toNat = 0x85 ||
  c.toNat = 0xA0 || c.toNat = 0x1680 || (0x2000 ≤ c.toNat && c.toNat ≤ 0x200A) ||
  c.toNat = 0x2028 || c.toNat = 0x2029 || c.toNat = 0x202F || c.toNat = 0x205F ||
  c.toNat = 0x3000

/-- Model of `s.trim().is_empty()`: every character of `s` is
whitespace. -/
def trimmedEmpty (s : String) : Bool := s.data.all isRustWhitespace

/-- model.rs `QualityOfService`. -/
inductive QualityOfService where
  | AtMostOnce
  | AtLeastOnce
  | ExactlyOnce
deriving DecidableEq, Repr

/-- config.rs `MQTTSourceConfig` (`port` is a `u16`, `channel_capacity`
a `usize`, `timeout_ms` a `u64`). -/
structure MQTTSourceConfig where
  host : String
  port : Nat
  topic : String
  username : Option String
  password : Option String
  qos : QualityOfService
  channel_capacity : Nat
  timeout_ms : Nat

/-- The host validation message of config.rs lines 79-82 (Rust's
trailing `\` joins the two literal lines with the single space before
it). -/
def hostErrMsg : String :=
  "Validation error: host cannot be empty. Please specify a valid host address for the MQTT broker."

/-- The port validation message of config.rs lines 85-88. -/
def portErrMsg : String :=
  "Validation error: port cannot be 0. Please specify a valid port number for the MQTT broker (1-65535)."

/-- The topic validation message of config.rs lines 91-94. -/
def topicErrMsg : String :=
  "Validation error: topic cannot be empty. Please specify a valid topic for the MQTT broker."

/-- The timeout validation message of config.rs lines 97-100. -/
def timeoutErrMsg : String :=
  "Validation error: timeout_ms cannot be 0. Please specify a positive timeout value in milliseconds."

/-- config.rs `MQTTSourceConfig::validate` (lines 77-103). -/
def MQTTSourceConfig.validate (c : MQTTSourceConfig) : Except String Unit :=
  if trimmedEmpty c.host then .error hostErrMsg
  else if c.port = 0 then .error portErrMsg
  else if trimmedEmpty c.topic then .error topicErrMsg
  else if c.timeout_ms = 0 then .error timeoutErrMsg
  else .ok ()

/-- Declarative value-conversion relation, following the spec's value
mapping (section 3) with the number rule as the code implements it:
null to Null, booleans to Bool, numbers representable as signed 64-bit
integers to Integer, every other number — including exact integer
literals above `i64::MAX`, which are cast to a double — to Float,
strings to String, arrays elementwise to List, and objects entrywise
to Object (entries inserted in order). -/
inductive JsonMapsTo : Json → ElementValue → Prop where
  | null : JsonMapsTo .null .Null
  | bool (b : Bool) : JsonMapsTo (.bool b) (.Bool b)
  | intFits (n : Nat) (h : n ≤ i64Max) : JsonMapsTo (.num (.posInt n)) (.Integer (n : Int))
  | intBig (n : Nat) (h : i64Max < n) : JsonMapsTo (.num (.posInt n)) (.Float (.ofU64 n))
  | intNeg (i : Int) : JsonMapsTo (.num (.negInt i)) (.Integer i)
  | floatNum (f : F64) : JsonMapsTo (.num (.float f)) (.Float f)
  | strv (s : String) : JsonMapsTo (.str s) (.String s)
  | arrv (l : List Json) (vs : List ElementValue) (hlen : l.length = vs.length)
      (hv : ∀ p ∈ l.zip vs, JsonMapsTo p.1 p.2) : JsonMapsTo (.arr l) (.List vs)
  | objv (o : List (String × Json)) (ents : List (String × ElementValue))
      (hk : ents.map Prod.fst = o.map Prod.fst)
      (hv : ∀ p ∈ o.zip ents, JsonMapsTo p.1.2 p.2.2) :
      JsonMapsTo (.obj o) (.Object (buildPropMap ents))

/-- The byte sequence of an ASCII (or any Unicode) string; used to
write concrete payloads.  All concrete payloads below are pure ASCII,
so each character is one byte. -/
def asciiBytes (s : String) : List Nat := s.data.map Char.toNat

/-- A concrete malformed publish payload. -/
def malformedPayload : List Nat := asciiBytes "not json"

/-- A concrete well-formed delete payload. -/
def wellFormedPayload : List Nat :=
  asciiBytes "\x7b\"operation\":\"delete\",\"id\":\"n1\"\x7d"

/-- The spec's example JSON document for value conversion (section 8). -/
def exampleValueText : String := "\x7b\"a\":1,\"b\":[true,null,\"x\"]\x7d"

/-- The parsed form of `exampleValueText`. -/
def exampleValueJson : Json :=
  .obj [("a", .num (.posInt 1)), ("b", .arr [.bool true, .null, .str "x"])]

/-- The spec's expected conversion of `exampleValueText` (section 8):
Object{a: Integer(1), b: List[Bool(true), Null, String("x")]}. -/
def exampleElementValue : ElementValue :=
  .Object [("a", .Integer 1), ("b", .List [.Bool true, .Null, .String "x"])]

theorem decodeStrings_map_str (ls : List String) :
    decodeStrings (ls.map Json.str) = .ok ls := by
  induction ls with
  | nil => rfl
  | cons s rest ih => simp [decodeStrings, ih]

mutual

theorem convert_total (j : Json) :
    ∃ v, convert_json_to_element_value j = .ok v ∧ JsonMapsTo j v := by
  match j with
  | .null => exact ⟨.Null, rfl, .null⟩
  | .bool b => exact ⟨.Bool b, rfl, .bool b⟩
  | .num (.posInt n) =>
    by_cases h : n ≤ i64Max
    · refine ⟨.Integer (n : Int), ?_, .intFits n h⟩
      simp only [convert_json_to_element_value, JNum.as_i64]
      rw [if_pos h]
    · refine ⟨.Float (.ofU64 n), ?_, .intBig n (Nat.lt_of_not_le h)⟩
      simp only [convert_json_to_element_value, JNum.as_i64, JNum.as_f64]
      rw [if_neg h]
  | .num (.negInt i) => exact ⟨.Integer i, rfl, .intNeg i⟩
  | .num (.float f) => exact ⟨.Float f, rfl, .floatNum f⟩
  | .str s => exact ⟨.String s, rfl, .strv s⟩
  | .arr l =>
    obtain ⟨vs, h1, h2, h3⟩ := convertList_total l
    refine ⟨.List vs, ?_, .arrv l vs h2 h3⟩
    simp only [convert_json_to_element_value]
    rw [h1]
  | .obj o =>
    obtain ⟨ents, h1, h2, h3⟩ := convertEntries_total o
    refine ⟨.Object (buildPropMap ents), ?_, .objv o ents h2 h3⟩
    simp only [convert_json_to_element_value]
    rw [h1]

theorem convertList_total (l : List Json) :
    ∃ vs, convertJsonList l = .ok vs ∧ l.length = vs.length ∧
      ∀ p ∈ l.zip vs, JsonMapsTo p.1 p.2 := by
  match l with
  | [] => exact ⟨[], rfl, rfl, by simp⟩
  | j :: rest =>
    obtain ⟨v, hv1, hv2⟩ := convert_total j
    obtain ⟨vs, h1, h2, h3⟩ := convertList_total rest
    refine ⟨v :: vs, ?_, by simp [h2], ?_⟩
    · simp only [convertJsonList]
      rw [hv1, h1]
    · intro p hp
      rcases List.mem_cons.mp hp with h | h
      · subst h; exact hv2
      · exact h3 p h

theorem convertEntries_total (o : List (String × Json)) :
    ∃ ents, convertJsonEntries o = .ok ents ∧ ents.map Prod.fst = o.map Prod.fst ∧
      ∀ p ∈ o.zip ents, JsonMapsTo p.1.2 p.2.2 := by
  match o with
  | [] => exact ⟨[], rfl, rfl, by simp⟩
  | (k, v) :: rest =>
    obtain ⟨ev, hv1, hv2⟩ := convert_total v
    obtain ⟨ents, h1, h2, h3⟩ := convertEntries_total rest
    refine ⟨(k, ev) :: ents, ?_, by simp [h2], ?_⟩
    · simp only [convertJsonEntries]
      rw [hv1, h1]
    · intro p hp
      rcases List.mem_cons.mp hp with h | h
      · subst h; exact hv2
      · exact h3 p h

end

theorem create_element_ok_spec (el : MQTTElement) (sid : String) (ts : Nat) :
    ∃ e, create_element_from_mqtt el sid ts = .ok e ∧
      e.metadata.effective_from = ts ∧ e.metadata.reference.source_id = sid ∧
      ∀ r ∈ e.refs, r.source_id = sid := by
  cases el with
  | Node id labels props =>
    obtain ⟨ents, h1, _, _⟩ := convertEntries_total props
    refine ⟨.Node ⟨⟨sid, id⟩, labels, ts⟩ (buildPropMap ents), ?_, rfl, rfl, ?_⟩
    · simp only [create_element_from_mqtt]
      rw [h1]
    · intro r hr
      simp only [Element.refs, List.mem_singleton] at hr
      subst hr; rfl
  | Relation id labels f t props =>
    obtain ⟨ents, h1, _, _⟩ := convertEntries_total props
    refine ⟨.Relation ⟨⟨sid, id⟩, labels, ts⟩ (buildPropMap ents) ⟨sid, t⟩ ⟨sid, f⟩,
      ?_, rfl, rfl, ?_⟩
    · simp only [create_element_from_mqtt]
      rw [h1]
    · intro r hr
      simp only [Element.refs, List.mem_cons, List.mem_singleton] at hr
      rcases hr with h | h | h | h
      · subst h; rfl
      · subst h; rfl
      · subst h; rfl
      · exact absurd h (by simp)

theorem create_refs_source_id (el : MQTTElement) (sid : String) (ts : Nat) (e : Element)
    (h : create_element_from_mqtt el sid ts = .ok e) :
    ∀ r ∈ e.refs, r.source_id = sid := by
  obtain ⟨e2, h2, _, _, hrefs⟩ := create_element_ok_spec el sid ts
  rw [h] at h2
  cases h2
  exact hrefs

theorem convert_refs_source_id (change : MQTTSourceChange) (sid : String) (now : Nat)
    (sc : SourceChange) (h : convert_mqtt_to_source_change change sid now = .ok sc) :
    ∀ r ∈ sc.refs, r.source_id = sid := by
  cases change with
  | Insert el ts =>
    simp only [convert_mqtt_to_source_change] at h
    cases hc : create_element_from_mqtt el sid (ts.getD now) with
    | error e => rw [hc] at h; cases h
    | ok e =>
      rw [hc] at h
      cases h
      exact create_refs_source_id el sid (ts.getD now) e hc
  | Update el ts =>
    simp only [convert_mqtt_to_source_change] at h
    cases hc : create_element_from_mqtt el sid (ts.getD now) with
    | error e => rw [hc] at h; cases h
    | ok e =>
      rw [hc] at h
      cases h
      exact create_refs_source_id el sid (ts.getD now) e hc
  | Delete id labels ts =>
    simp only [convert_mqtt_to_source_change] at h
    cases h
    intro r hr
    simp only [SourceChange.refs, Element.refs, List.mem_singleton] at hr
    subst hr; rfl

theorem process_events_dispatched (sid : String) (change : MQTTSourceChange) (now : Nat)
    (e : SourceChangeEvent) (h : process_events sid change now = .dispatched e) :
    e.source_id = sid ∧ e.timestamp = now ∧
      ∀ r ∈ e.change.refs, r.source_id = sid := by
  unfold process_events at h
  cases hc : convert_mqtt_to_source_change change sid now with
  | error msg => rw [hc] at h; cases h
  | ok sc =>
    rw [hc] at h
    cases h
    exact ⟨rfl, rfl, convert_refs_source_id change sid now sc hc⟩

theorem sessionLoop_dispatched (now : Nat) (polls : List PollResult)
    (e : SourceChangeEvent)
    (h : LoopItem.dispatched e ∈ (sessionLoop now polls).1) :
    e.source_id = hardcodedSourceId ∧ e.timestamp = now ∧
      ∀ r ∈ e.change.refs, r.source_id = hardcodedSourceId := by
  induction polls with
  | nil => simp [sessionLoop] at h
  | cons p rest ih =>
    cases p with
    | transportError msg => simp [sessionLoop] at h
    | outgoing => exact ih (by simpa [sessionLoop] using h)
    | incoming i =>
      cases i with
      | otherIncoming => exact ih (by simpa [sessionLoop] using h)
      | publish topic payload =>
        simp only [sessionLoop] at h
        cases hd : decodePayload payload with
        | error msg => rw [hd] at h; simp at h
        | ok change =>
          rw [hd] at h
          simp only [List.mem_cons] at h
          rcases h with h | h
          · exact process_events_dispatched hardcodedSourceId change now e h.symm
          · exact ih h

theorem mqttSourceStart_trace (id : String) (subscribeOk : Bool) (now : Nat)
    (polls : List PollResult) :
    (mqttSourceStart id subscribeOk now polls).1 =
      .statusSet .Starting :: (connectionStart subscribeOk now polls).1.map .loopItem := by
  unfold mqttSourceStart
  rcases hc : connectionStart subscribeOk now polls with ⟨items, ex⟩
  cases ex <;> simp

/-- C5: `validate()` succeeds exactly when host and topic are
non-empty after trimming, port is nonzero and timeout is nonzero; on
failure it reports the first violated constraint in the priority
order empty host, zero port, empty topic, zero timeout, naming that
field in the error. -/
theorem mqtt_config_validate_first_violation (c : MQTTSourceConfig) :
    (c.validate = .ok () ↔
      (trimmedEmpty c.host = false ∧ c.port ≠ 0 ∧ trimmedEmpty c.topic = false ∧
        c.timeout_ms ≠ 0)) ∧
    (trimmedEmpty c.host = true → c.validate = .error hostErrMsg) ∧
    (trimmedEmpty c.host = false → c.port = 0 → c.validate = .error portErrMsg) ∧
    (trimmedEmpty c.host = false → c.port ≠ 0 → trimmedEmpty c.topic = true →
      c.validate = .error topicErrMsg) ∧
    (trimmedEmpty c.host = false → c.port ≠ 0 → trimmedEmpty c.topic = false →
      c.timeout_ms = 0 → c.validate = .error timeoutErrMsg) := by
  unfold MQTTSourceConfig.validate
  split_ifs with h1 h2 h3 h4 <;> simp_all

/-- C7: converting an Insert carrying an explicit timestamp `t`
produces an element whose `effective_from` is exactly `t`, for every
wall-clock value; the wall clock (`now`) is used only when the
timestamp is absent. -/
theorem insert_timestamp_preserved (el : MQTTElement) (t : Nat) (sid : String)
    (now now2 : Nat) :
    (∃ sc, convert_mqtt_to_source_change (.Insert el (some t)) sid now = .ok sc ∧
      sc.effectiveFrom = t) ∧
    (∃ sc, convert_mqtt_to_source_change (.Insert el none) sid now2 = .ok sc ∧
      sc.effectiveFrom = now2) := by
  constructor
  · obtain ⟨e, h1, h2, _, _⟩ := create_element_ok_spec el sid ((some t).getD now)
    refine ⟨.Insert e, ?_, ?_⟩
    · simp only [convert_mqtt_to_source_change]
      rw [h1]
    · simpa [SourceChange.effectiveFrom] using h2
  · obtain ⟨e, h1, h2, _, _⟩ := create_element_ok_spec el sid (Option.getD none now2)
    refine ⟨.Insert e, ?_, ?_⟩
    · simp only [convert_mqtt_to_source_change]
      rw [h1]
    · simpa [SourceChange.effectiveFrom] using h2

/-- C9: converting a Delete whose labels field is absent succeeds and
produces metadata with an empty label set; the missing field is not an
error. -/
theorem delete_missing_labels_empty (id : String) (ts : Option Nat) (sid : String)
    (now : Nat) :
    convert_mqtt_to_source_change (.Delete id none ts) sid now =
      .ok (.Delete ⟨⟨sid, id⟩, [], ts.getD now⟩) := rfl

/-- C10: converting a Relation stamps the element's own reference with
(source_id, id), the `out_node` with (source_id, from) and the
`in_node` with (source_id, to), all carrying the same source_id. -/
theorem relation_endpoints_stamped (id : String) (labels : List String) (f t : String)
    (props : List (String × Json)) (sid : String) (ts : Nat) :
    ∃ pm, create_element_from_mqtt (.Relation id labels f t props) sid ts =
      .ok (.Relation ⟨⟨sid, id⟩, labels, ts⟩ pm ⟨sid, t⟩ ⟨sid, f⟩) := by
  obtain ⟨ents, h1, _, _⟩ := convertEntries_total props
  refine ⟨buildPropMap ents, ?_⟩
  simp only [create_element_from_mqtt]
  rw [h1]

/-- C8 (amended): value conversion is total and maps every JSON shape
recursively — null to Null, booleans to Bool, numbers representable as
signed 64-bit integers to Integer, every other number (including
exact integer literals above `i64::MAX`, which are cast to a double)
to Float, strings to String, arrays elementwise to List, objects
entrywise to Object — no JSON value is dropped; and the spec's example
document converts exactly as stated. -/
theorem value_conversion_total_and_shaped :
    (∀ j : Json, ∃ v, convert_json_to_element_value j = .ok v ∧ JsonMapsTo j v) ∧
    parseJson exampleValueText.data = some exampleValueJson ∧
    convert_json_to_element_value exampleValueJson = .ok exampleElementValue :=
  ⟨convert_total, rfl, rfl⟩

/-- C8 counterexample: the wire number 18446744073709551615 is an
exact integer (it is parsed and stored exactly as a `u64`), yet the
conversion produces a Float — the lossy `u64 as f64` cast — not an
Integer, refuting "numbers with an exact integer representation map
to Integer". -/
theorem big_u64_maps_to_float :
    JNum.exactInt (.posInt 18446744073709551615) = some (18446744073709551615 : Int) ∧
    parseJson "18446744073709551615".data = some (.num (.posInt 18446744073709551615)) ∧
    convert_json_to_element_value (.num (.posInt 18446744073709551615)) =
      .ok (.Float (.ofU64 18446744073709551615)) :=
  ⟨rfl, rfl, rfl⟩

/-- C6: round-trip — serializing any `MQTTSourceChange` to its JSON
wire form and deserializing it again yields an equal value. -/
theorem mqtt_change_roundtrip (x : MQTTSourceChange) :
    mqttFromJson (mqttToJson x) = .ok x := by
  cases x with
  | Insert el ts =>
    cases el <;> cases ts <;>
      simp [mqttToJson, mqttElementToJson, tsFields, mqttFromJson, mqttElementFromJson,
        jlookup, noDupFields, keyCount, List.countP_cons, List.countP_nil,
        decodeReqStringField, decodeReqLabelsField, decodePropsField,
        decodeOptU64Field, decodeStrings_map_str]
  | Update el ts =>
    cases el <;> cases ts <;>
      simp [mqttToJson, mqttElementToJson, tsFields, mqttFromJson, mqttElementFromJson,
        jlookup, noDupFields, keyCount, List.countP_cons, List.countP_nil,
        decodeReqStringField, decodeReqLabelsField, decodePropsField,
        decodeOptU64Field, decodeStrings_map_str]
  | Delete id labels ts =>
    cases labels <;> cases ts <;>
      simp [mqttToJson, labelsFields, tsFields, mqttFromJson, jlookup,
        noDupFields, keyCount, List.countP_cons, List.countP_nil,
        decodeReqStringField, decodeOptLabelsField, decodeOptU64Field,
        decodeStrings_map_str]

/-- serde's derived deserializers reject a duplicated known field and
a duplicated tag; the decode model does the same, and the declarative
schema predicate rejects the same documents: evaluations at a
duplicated `id` field and at a duplicated `operation` tag. -/
theorem duplicate_fields_rejected :
    map_json_to_mqtt_source_change
        "\x7b\"operation\":\"delete\",\"id\":\"a\",\"id\":\"b\"\x7d".data =
      .error "duplicate field" ∧
    map_json_to_mqtt_source_change
        "\x7b\"operation\":\"delete\",\"operation\":\"delete\",\"id\":\"a\"\x7d".data =
      .error "duplicate field operation" ∧
    wireSchemaOk
        (.obj [("operation", .str "delete"), ("id", .str "a"), ("id", .str "b")]) =
      false :=
  ⟨rfl, rfl, rfl⟩

/-- C1: evaluation at the failing input — a malformed payload
mid-stream terminates the receive loop with the propagated decode
error before the following well-formed payload is processed, although
that same well-formed payload is decoded, converted and dispatched
when it is delivered without the malformed one in front of it. -/
theorem malformed_payload_terminates_session :
    sessionLoop 0 [.incoming (.publish "topic" malformedPayload),
        .incoming (.publish "topic" wellFormedPayload)] =
      ([], .failed "invalid JSON") ∧
    sessionLoop 0 [.incoming (.publish "topic" wellFormedPayload)] =
      ([.dispatched ⟨hardcodedSourceId, .Delete ⟨⟨hardcodedSourceId, "n1"⟩, [], 0⟩, 0⟩],
        .blocked) :=
  ⟨rfl, rfl⟩

/-- C2: evaluation at the failing input — with subscribe succeeding
and a well-formed publish processed, `MQTTSource::start` reports
Starting and then processes the message while the Running status is
never reported: the `set_status(Running)` call sits after the receive
loop, which has no normal exit. -/
theorem running_not_reported_while_processing :
    (mqttSourceStart "alpha" true 0 [.incoming (.publish "topic" wellFormedPayload)]).1 =
      [.statusSet .Starting,
        .loopItem (.dispatched
          ⟨hardcodedSourceId, .Delete ⟨⟨hardcodedSourceId, "n1"⟩, [], 0⟩, 0⟩)] ∧
    traceHasRunning
      (mqttSourceStart "alpha" true 0
        [.incoming (.publish "topic" wellFormedPayload)]).1 = false ∧
    traceDispatchCount
      (mqttSourceStart "alpha" true 0
        [.incoming (.publish "topic" wellFormedPayload)]).1 = 1 :=
  ⟨rfl, rfl, rfl⟩

/-- C4 (amended): every dispatched change event, and every element
reference it contains, carries the hardcoded source id "mqtt-source" —
one shared source id per session, never taken from the message, and
independent of the adapter's configured identifier. -/
theorem dispatch_source_id_hardcoded (id : String) (subscribeOk : Bool) (now : Nat)
    (polls : List PollResult) (e : SourceChangeEvent)
    (h : TraceEntry.loopItem (.dispatched e) ∈
      (mqttSourceStart id subscribeOk now polls).1) :
    e.source_id = hardcodedSourceId ∧
      ∀ r ∈ e.change.refs, r.source_id = hardcodedSourceId := by
  rw [mqttSourceStart_trace] at h
  simp only [List.mem_cons] at h
  rcases h with h | h
  · simp at h
  · obtain ⟨item, hitem, heq⟩ := List.mem_map.mp h
    have : item = .dispatched e := by
      injection heq
    subst this
    cases subscribeOk with
    | false => simp [connectionStart] at hitem
    | true =>
      simp only [connectionStart, if_pos] at hitem
      obtain ⟨h1, _, h3⟩ := sessionLoop_dispatched now polls e hitem
      exact ⟨h1, h3⟩

/-- Witness for `dispatch_source_id_hardcoded` at a concrete input:
adapter id "alpha", one well-formed delete publish. -/
theorem dispatch_source_id_hardcoded_witness :
    (SourceChangeEvent.mk hardcodedSourceId
        (.Delete ⟨⟨hardcodedSourceId, "n1"⟩, [], 0⟩) 0).source_id = hardcodedSourceId ∧
    (ElementReference.mk hardcodedSourceId "n1").source_id = hardcodedSourceId :=
  ⟨(dispatch_source_id_hardcoded "alpha" true 0
      [.incoming (.publish "topic" wellFormedPayload)]
      ⟨hardcodedSourceId, .Delete ⟨⟨hardcodedSourceId, "n1"⟩, [], 0⟩, 0⟩
      (List.Mem.tail _ (List.Mem.head _))).1,
    (dispatch_source_id_hardcoded "alpha" true 0
      [.incoming (.publish "topic" wellFormedPayload)]
      ⟨hardcodedSourceId, .Delete ⟨⟨hardcodedSourceId, "n1"⟩, [], 0⟩, 0⟩
      (List.Mem.tail _ (List.Mem.head _))).2
      ⟨hardcodedSourceId, "n1"⟩ (List.Mem.head _)⟩

/-- C4 counterexample: with adapter identifier "alpha", the dispatched
event's element reference carries source id "mqtt-source", which is
not the adapter's identifier — the source id does not come from the
adapter's configuration. -/
theorem dispatch_ignores_adapter_id :
    (mqttSourceStart "alpha" true 0 [.incoming (.publish "topic" wellFormedPayload)]).1 =
      [.statusSet .Starting,
        .loopItem (.dispatched
          ⟨"mqtt-source", .Delete ⟨⟨"mqtt-source", "n1"⟩, [], 0⟩, 0⟩)] ∧
    ("mqtt-source" : String) ≠ "alpha" :=
  ⟨rfl, by decide⟩

end MqttAdapter
